import Mathlib

/-!
Shallow embedding of the snapshot ingestion pipeline of
`core/scripts/players_stats_5k.py`: the Schema Registry (`SKILLS`,
`BOSSES`), the Transport Retrier (`fetch_player_stats`'s retry loop),
the Record Decoder (skill block, tail-anchored boss block, sentinel
normalisation), the Player Lifecycle Tracker (`load_dropped_players`,
the dropped-player appends of `build_database`) and the Panel Row
Builder (the row-building loop of `build_database`).

Python exceptions are modelled by the `PyError` type carrying the
exception class and its message string; the network transport is an
explicit function from the attempt number (1-based) to the outcome of
that attempt; `time.sleep` calls are collected into an explicit list of
slept durations, in order.
-/

deriving instance DecidableEq for Except

/-- Python exception values that the script can raise, with the class
    (`ValueError`, `requests.exceptions.RequestException`, `RuntimeError`,
    `KeyError`) and the message / key. -/
inductive PyError where
  | valueError (msg : String)
  | requestError (msg : String)
  | runtimeError (msg : String)
  | keyError (key : String)
deriving DecidableEq, Repr

/-- Outcome of one `requests.get` attempt, as observed by the retry loop:
    a 404 status (`notFound`), a `RequestException` from the call itself or
    from `raise_for_status` (`transientError`), or a 2xx body (`ok`). -/
inductive TransportResult where
  | notFound
  | transientError (msg : String)
  | ok (body : String)
deriving DecidableEq, Repr

/-- `SKILLS` of `players_stats_5k.py`, in wire order. -/
def SKILLS : List String :=
  ["overall", "attack", "defence", "strength", "hitpoints", "ranged",
   "prayer", "magic", "cooking", "woodcutting", "fletching", "fishing",
   "firemaking", "crafting", "smithing", "mining", "herblore", "agility",
   "thieving", "slayer", "farming", "runecraft", "hunter", "construction",
   "sailing"]

/-- `BOSSES` of `players_stats_5k.py`, in official hiscore order. -/
def BOSSES : List String :=
  ["abyssal_sire", "alchemical_hydra", "amoxliatl", "araxxor", "artio",
   "barrows_chests", "bryophyta", "callisto", "calvarion", "cerberus",
   "chambers_of_xeric", "chambers_of_xeric_challenge_mode",
   "chaos_elemental", "chaos_fanatic", "commander_zilyana",
   "corporeal_beast", "crazy_archaeologist", "dagannoth_prime",
   "dagannoth_rex", "dagannoth_supreme", "deranged_archaeologist",
   "doom_of_mokhaiotl", "duke_sucellus", "general_graardor", "giant_mole",
   "grotesque_guardians", "hespori", "kalphite_queen", "king_black_dragon",
   "kraken", "kree_arra", "kril_tsutsaroth", "lunar_chests", "mimic",
   "nex", "nightmare", "phosanis_nightmare", "obor", "phantom_muspah",
   "sarachnis", "scorpia", "scurrius", "skotizo", "sol_heredit", "spindel",
   "tempoross", "gauntlet", "corrupted_gauntlet", "hueycoatl", "leviathan",
   "royal_titans", "whisperer", "theatre_of_blood",
   "theatre_of_blood_hard_mode", "thermonuclear_smoke_devil",
   "tombs_of_amascut", "tombs_of_amascut_expert_mode", "tzkal_zuk",
   "tztok_jad", "vardorvis", "venenatis", "vetion", "vorkath",
   "wintertodt", "yama", "zalcano", "zulrah"]

/-- One decoded skill row: `{"rank": int, "level": int, "xp": int}`. -/
structure SkillEntry where
  rank : Int
  level : Int
  xp : Int
deriving DecidableEq, Repr

/-- One decoded boss row: `{"rank": Optional[int], "kc": Optional[int]}`. -/
structure BossEntry where
  rank : Option Int
  kc : Option Int
deriving DecidableEq, Repr

/-- The `stats` dict returned by `fetch_player_stats`: the skill entries in
    insertion order, and under the `"bosses"` key the boss entries in
    insertion order. -/
structure Stats where
  skills : List (String × SkillEntry)
  bosses : List (String × BossEntry)
deriving DecidableEq, Repr

/-- The retry loop of `fetch_player_stats` (lines 126-159): `fuel` is the
    number of loop iterations still available (`range(1, max_retries+1)`
    runs `max_retries` of them), `attempt` the 1-based attempt counter and
    `lastExc` the Python `last_exc` variable.  Returns the body of the
    successful response or the raised exception, paired with the list of
    durations passed to `time.sleep`, in order. -/
def fetchGo (transport : Nat → TransportResult) (player_name : String)
    (maxRetries baseDelay : Nat) :
    Nat → Nat → Option String → Except PyError String × List Nat
  | 0, _, lastExc =>
    (Except.error (match lastExc with
      | some m => PyError.requestError m
      | none => PyError.runtimeError
          ("Unexpected error fetching stats for " ++ player_name)), [])
  | fuel + 1, attempt, _ =>
    match transport attempt with
    | TransportResult.notFound =>
      (Except.error (PyError.valueError
        ("Player \x27" ++ player_name ++ "\x27 not on hiscores.")), [])
    | TransportResult.ok body => (Except.ok body, [])
    | TransportResult.transientError m =>
      if attempt = maxRetries then
        (Except.error (PyError.requestError m), [])
      else
        let r := fetchGo transport player_name maxRetries baseDelay fuel
          (attempt + 1) (some m)
        (r.1, baseDelay * attempt :: r.2)

/-- The transport phase of `fetch_player_stats`: run the retry loop from
    attempt 1 with `last_exc = None`. -/
def fetchText (transport : Nat → TransportResult) (player_name : String)
    (maxRetries baseDelay : Nat) : Except PyError String × List Nat :=
  fetchGo transport player_name maxRetries baseDelay maxRetries 1 none

/-- Python `str.strip()` on a character list: drop leading and trailing
    whitespace. -/
def pyStrip (cs : List Char) : List Char :=
  ((cs.dropWhile Char.isWhitespace).reverse.dropWhile Char.isWhitespace).reverse

/-- Python `str.split(sep)` for a one-character separator: split at every
    occurrence, keeping empty parts. -/
def splitOnChar (c : Char) : List Char → List (List Char)
  | [] => [[]]
  | x :: xs =>
    let r := splitOnChar c xs
    if x = c then [] :: r
    else
      match r with
      | [] => [[x]]
      | g :: gs => (x :: g) :: gs

/-- The digit block of Python `int(s)`: one or more decimal digits; `none`
    when `int` would raise `ValueError`. -/
def decDigits (cs : List Char) : Option Nat :=
  if cs ≠ [] ∧ cs.all Char.isDigit then
    some (cs.foldl (fun n c => n * 10 + (c.toNat - 48)) 0)
  else none

/-- Python `int(s)` on a decimal string: optional surrounding whitespace,
    optional sign, then one or more digits. -/
def pyInt (s : String) : Option Int :=
  match pyStrip s.data with
  | '-' :: rest => (decDigits rest).map (fun n => -(n : Int))
  | '+' :: rest => (decDigits rest).map (fun n => (n : Int))
  | cs => (decDigits cs).map (fun n => (n : Int))

/-- `int(s)` as an expression that raises `ValueError` on failure, with
    CPython's message.  Every exception the decoding phase can raise is a
    `ValueError`, so decode errors carry just the message string here and
    are wrapped into `PyError.valueError` by `decodeRows`. -/
def intOrErr (s : String) : Except String Int :=
  match pyInt s with
  | some n => Except.ok n
  | none => Except.error
      ("invalid literal for int() with base 10: \x27" ++ s ++ "\x27")

/-- Lines 169-170: `r, lvl, xp = row` (a `ValueError` unless the row has
    exactly 3 fields) followed by the three `int` conversions, left to
    right. -/
def decodeSkillRow (row : List String) : Except String SkillEntry :=
  match row with
  | [r, lvl, xp] =>
    match intOrErr r with
    | Except.error e => Except.error e
    | Except.ok rv =>
      match intOrErr lvl with
      | Except.error e => Except.error e
      | Except.ok lv =>
        match intOrErr xp with
        | Except.error e => Except.error e
        | Except.ok xv => Except.ok ⟨rv, lv, xv⟩
  | _ => Except.error
      (if row.length < 3 then
        "not enough values to unpack (expected 3, got " ++
          toString row.length ++ ")"
       else "too many values to unpack (expected 3)")

/-- The skill loop of lines 167-170 over `zip(SKILLS, skill_rows)`,
    stopping at the first raising row. -/
def decodeSkillsGo : List (String × List String) →
    Except String (List (String × SkillEntry))
  | [] => Except.ok []
  | (skill, row) :: rest =>
    match decodeSkillRow row with
    | Except.error e => Except.error e
    | Except.ok entry =>
      match decodeSkillsGo rest with
      | Except.error e => Except.error e
      | Except.ok tail => Except.ok ((skill, entry) :: tail)

/-- Lines 167-170: decode `rows[:len(SKILLS)]` against the Schema
    Registry. -/
def decodeSkills (rows : List (List String)) :
    Except String (List (String × SkillEntry)) :=
  decodeSkillsGo (SKILLS.zip (rows.take SKILLS.length))

/-- Line 175: `activity_rows[-boss_count:] if len(activity_rows) >=
    boss_count else []`, with `activity_rows = rows[len(SKILLS):]`. -/
def bossRowsOf (rows : List (List String)) : List (List String) :=
  let activity := rows.drop SKILLS.length
  if BOSSES.length ≤ activity.length then
    activity.drop (activity.length - BOSSES.length)
  else []

/-- Lines 178-200: decode one boss row — short rows give the all-`None`
    placeholder; otherwise the first two fields are parsed independently
    and the negative-sentinel normalisation is applied. -/
def decodeBossRow (row : List String) : BossEntry :=
  if row.length < 2 then ⟨none, none⟩
  else
    let rank0 := pyInt (row.getD 0 "")
    let kc0 := pyInt (row.getD 1 "")
    let rank := match rank0 with
      | some r => if r < 0 then none else some r
      | none => none
    let kc := match kc0 with
      | some k => if k < 0 then some 0 else some k
      | none => none
    ⟨rank, kc⟩

/-- Lines 177-200: the boss loop over `zip(BOSSES, boss_rows)`. -/
def decodeBosses (rows : List (List String)) : List (String × BossEntry) :=
  (BOSSES.zip (bossRowsOf rows)).map (fun p => (p.1, decodeBossRow p.2))

/-- Lines 161-203: parse the rows of a successful response into a `Stats`
    value, raising only from the skill block. -/
def decodeRows (rows : List (List String)) : Except PyError Stats :=
  match decodeSkills rows with
  | Except.error e => Except.error (PyError.valueError e)
  | Except.ok sk => Except.ok ⟨sk, decodeBosses rows⟩

/-- Line 163: `list(csv.reader(text.strip().split("\n")))` — split the
    stripped body into lines and each line into comma-separated fields. -/
def parsePayload (text : String) : List (List String) :=
  (splitOnChar '\n' (pyStrip text.data)).map
    (fun line => (splitOnChar ',' line).map (fun f => String.mk f))

/-- `fetch_player_stats` (lines 119-203): the retry loop followed by
    decoding of the successful body, paired with the slept durations. -/
def fetch_player_stats (transport : Nat → TransportResult)
    (player_name : String) (maxRetries baseDelay : Nat) :
    Except PyError Stats × List Nat :=
  let r := fetchText transport player_name maxRetries baseDelay
  match r.1 with
  | Except.error e => (Except.error e, r.2)
  | Except.ok body => (decodeRows (parsePayload body), r.2)

/-- Python `sub in s` on strings. -/
def strContains (s sub : String) : Bool :=
  (List.range (s.data.length + 1)).any
    (fun i => sub.data.isPrefixOf (s.data.drop i))

/-- `load_dropped_players` (lines 226-233).  The file system is explicit:
    `none` is an absent file, `some df` a file pandas has read into a
    frame given as an association list from column name to the column's
    string values; the result is the `player_name` column (as the set of
    its members). -/
def load_dropped_players (file : Option (List (String × List String))) :
    List String :=
  match file with
  | none => []
  | some df =>
    match df.lookup "player_name" with
    | none => []
    | some vals => vals

/-- Line 288: `stats["bosses"].get(boss, {"kc": None, "rank": None})`. -/
def bossEntryOf (st : Stats) (b : String) : BossEntry :=
  (st.bosses.lookup b).getD ⟨none, none⟩

/-- One flattened output row of `build_database` (lines 277-292). -/
structure PanelRow where
  player_name : String
  date : String
  skills : List (String × SkillEntry)
  bosses : List (String × BossEntry)
deriving DecidableEq, Repr

/-- Lines 280-284: `vals = stats[skill]` for each skill, raising `KeyError`
    at the first skill missing from the dict. -/
def rowSkills (st : Stats) : List String →
    Except PyError (List (String × SkillEntry))
  | [] => Except.ok []
  | s :: rest =>
    match st.skills.lookup s with
    | none => Except.error (PyError.keyError s)
    | some v =>
      match rowSkills st rest with
      | Except.error e => Except.error e
      | Except.ok tail => Except.ok ((s, v) :: tail)

/-- Lines 277-292: build one panel row from a decoded `Stats`.  Missing
    skills raise `KeyError`; missing bosses fall back to the placeholder. -/
def buildRow (player_name date : String) (st : Stats) :
    Except PyError PanelRow :=
  match rowSkills st SKILLS with
  | Except.error e => Except.error e
  | Except.ok sk =>
    Except.ok ⟨player_name, date, sk,
      BOSSES.map (fun b => (b, bossEntryOf st b))⟩

/-- Observable outcome of one `build_database` run: the emitted rows, the
    names appended to the dropped-player store, the names whose processing
    was started (`Fetching: {name}` was printed), and the exception that
    escaped the loop, if any. -/
structure BatchResult where
  rows : List PanelRow
  dropped : List String
  attempted : List String
  error : Option PyError
deriving DecidableEq, Repr

/-- The per-player loop of `build_database` (lines 255-292).  The `try`
    block wraps only the fetch: a `ValueError` whose text contains
    `"not on hiscores"` marks the player dropped, any other exception from
    the fetch is logged and skipped, and an exception from the row-building
    code below the `try` escapes the loop. -/
def build_database_go (transports : String → Nat → TransportResult)
    (today : String) (maxRetries baseDelay : Nat) :
    List String → BatchResult
  | [] => ⟨[], [], [], none⟩
  | n :: rest =>
    match (fetch_player_stats (transports n) n maxRetries baseDelay).1 with
    | Except.error (PyError.valueError m) =>
      if strContains m "not on hiscores" then
        let r := build_database_go transports today maxRetries baseDelay rest
        ⟨r.rows, n :: r.dropped, n :: r.attempted, r.error⟩
      else
        let r := build_database_go transports today maxRetries baseDelay rest
        ⟨r.rows, r.dropped, n :: r.attempted, r.error⟩
    | Except.error _ =>
      let r := build_database_go transports today maxRetries baseDelay rest
      ⟨r.rows, r.dropped, n :: r.attempted, r.error⟩
    | Except.ok stats =>
      match buildRow n today stats with
      | Except.ok row =>
        let r := build_database_go transports today maxRetries baseDelay rest
        ⟨row :: r.rows, r.dropped, n :: r.attempted, r.error⟩
      | Except.error e => ⟨[], [], [n], some e⟩

/-- `build_database` (lines 250-294) over an explicit per-player
    transport. -/
def build_database (transports : String → Nat → TransportResult)
    (player_names : List String) (today : String)
    (maxRetries baseDelay : Nat) : BatchResult :=
  build_database_go transports today maxRetries baseDelay player_names

/-- The sleeps performed by `d` consecutive failing attempts starting at
    attempt number `attempt`: `baseDelay*attempt, baseDelay*(attempt+1), …`. -/
def delaysFrom (baseDelay : Nat) : Nat → Nat → List Nat
  | _, 0 => []
  | attempt, d + 1 =>
    baseDelay * attempt :: delaysFrom baseDelay (attempt + 1) d

/-! ## Helper lemmas -/

theorem delaysFrom_eq_map (baseDelay : Nat) :
    ∀ (d attempt : Nat), delaysFrom baseDelay attempt d =
      (List.range d).map (fun i => baseDelay * (attempt + i)) := by
  intro d
  induction d with
  | zero => intro attempt; simp [delaysFrom]
  | succ d ih =>
    intro attempt
    rw [List.range_succ_eq_map, List.map_cons, List.map_map,
      show delaysFrom baseDelay attempt (d + 1) =
        baseDelay * attempt :: delaysFrom baseDelay (attempt + 1) d from rfl,
      ih (attempt + 1)]
    simp only [List.cons.injEq]
    constructor
    · exact congrArg (fun t => baseDelay * t) (by omega)
    · refine List.map_congr_left (fun i _ => ?_)
      show baseDelay * (attempt + 1 + i) = baseDelay * (attempt + Nat.succ i)
      exact congrArg (fun t => baseDelay * t) (by omega)

theorem fetchGo_ok (transport : Nat → TransportResult) (name : String)
    (maxRetries baseDelay k : Nat) (m : Nat → String) (body : String)
    (hk2 : k ≤ maxRetries)
    (hfail : ∀ i, 1 ≤ i → i < k →
      transport i = TransportResult.transientError (m i))
    (hok : transport k = TransportResult.ok body) :
    ∀ (d attempt : Nat) (lastExc : Option String), 1 ≤ attempt →
      attempt + d = k →
      fetchGo transport name maxRetries baseDelay
        (maxRetries + 1 - attempt) attempt lastExc =
        (Except.ok body, delaysFrom baseDelay attempt d) := by
  intro d
  induction d with
  | zero =>
    intro attempt lastExc h1 hsum
    have hak : attempt = k := by omega
    subst hak
    rw [show maxRetries + 1 - attempt = (maxRetries - attempt) + 1 from by omega]
    simp [fetchGo, hok, delaysFrom]
  | succ d ih =>
    intro attempt lastExc h1 hsum
    have hlt : attempt < k := by omega
    have hne : attempt ≠ maxRetries := by omega
    rw [show maxRetries + 1 - attempt = (maxRetries - attempt) + 1 from by omega]
    simp only [fetchGo, hfail attempt h1 hlt]
    rw [if_neg hne,
      show maxRetries - attempt = maxRetries + 1 - (attempt + 1) from by omega,
      ih (attempt + 1) (some (m attempt)) (by omega) (by omega)]
    simp [delaysFrom]

theorem fetchGo_exhaust (transport : Nat → TransportResult) (name : String)
    (maxRetries baseDelay : Nat) (m : Nat → String)
    (hfail : ∀ i, 1 ≤ i → i ≤ maxRetries →
      transport i = TransportResult.transientError (m i)) :
    ∀ (d attempt : Nat) (lastExc : Option String), 1 ≤ attempt →
      attempt + d = maxRetries →
      fetchGo transport name maxRetries baseDelay
        (maxRetries + 1 - attempt) attempt lastExc =
        (Except.error (PyError.requestError (m maxRetries)),
         delaysFrom baseDelay attempt d) := by
  intro d
  induction d with
  | zero =>
    intro attempt lastExc h1 hsum
    have hak : attempt = maxRetries := by omega
    subst hak
    rw [show attempt + 1 - attempt = 1 from by omega]
    simp [fetchGo, hfail attempt h1 (le_refl attempt), delaysFrom]
  | succ d ih =>
    intro attempt lastExc h1 hsum
    have hne : attempt ≠ maxRetries := by omega
    rw [show maxRetries + 1 - attempt = (maxRetries - attempt) + 1 from by omega]
    simp only [fetchGo, hfail attempt h1 (by omega)]
    rw [if_neg hne,
      show maxRetries - attempt = maxRetries + 1 - (attempt + 1) from by omega,
      ih (attempt + 1) (some (m attempt)) (by omega) (by omega)]
    simp [delaysFrom]

theorem drop_append_len {α : Type} (l₁ l₂ : List α) (k : Nat) :
    (l₁ ++ l₂).drop (l₁.length + k) = l₂.drop k := by
  induction l₁ with
  | nil => simp
  | cons c cs ih => simp [Nat.succ_add, ih]

theorem strContains_of_drop (s sub : String) (i : Nat)
    (hi : i ≤ s.data.length)
    (h : sub.data.isPrefixOf (s.data.drop i) = true) :
    strContains s sub = true := by
  unfold strContains
  rw [List.any_eq_true]
  exact ⟨i, List.mem_range.mpr (by omega), h⟩

theorem notOnHiscores_msg_contains (name : String) :
    strContains ("Player \x27" ++ name ++ "\x27 not on hiscores.")
      "not on hiscores" = true := by
  have hdata : ("Player \x27" ++ name ++ "\x27 not on hiscores.").data =
      "Player \x27".data ++ (name.data ++ "\x27 not on hiscores.".data) := by
    simp [String.data_append]
  apply strContains_of_drop _ _ (8 + (name.data.length + 2))
  · rw [hdata]
    simp only [List.length_append, List.length_cons, List.length_nil]
    omega
  · rw [hdata]
    have h8 : ("Player \x27".data).length = 8 := by decide
    rw [show 8 + (name.data.length + 2) =
        ("Player \x27".data).length + (name.data.length + 2) from by omega,
      drop_append_len, drop_append_len]
    decide

/-! ## Claims -/

/-- C1: for a transport that fails transiently on attempts `1..k-1` and
    succeeds on attempt `k ≤ maxRetries`, the retry loop of
    `fetch_player_stats` returns the successful body, and the slept delays
    are exactly `baseDelay*1, baseDelay*2, …, baseDelay*(k-1)`, in that
    order (linear backoff, no sleep after the successful attempt);
    `fetch_player_stats` then decodes that body. -/
theorem C1_linear_backoff (transport : Nat → TransportResult)
    (name : String) (maxRetries baseDelay k : Nat) (m : Nat → String)
    (body : String) (hk1 : 1 ≤ k) (hk2 : k ≤ maxRetries)
    (hfail : ∀ i, 1 ≤ i → i < k →
      transport i = TransportResult.transientError (m i))
    (hok : transport k = TransportResult.ok body) :
    fetchText transport name maxRetries baseDelay =
      (Except.ok body,
       (List.range (k - 1)).map (fun i => baseDelay * (i + 1))) ∧
    fetch_player_stats transport name maxRetries baseDelay =
      (decodeRows (parsePayload body),
       (List.range (k - 1)).map (fun i => baseDelay * (i + 1))) := by
  have hmain := fetchGo_ok transport name maxRetries baseDelay k m body hk2
    hfail hok (k - 1) 1 none (le_refl 1) (by omega)
  rw [show maxRetries + 1 - 1 = maxRetries from by omega] at hmain
  have hdel : delaysFrom baseDelay 1 (k - 1) =
      (List.range (k - 1)).map (fun i => baseDelay * (i + 1)) := by
    rw [delaysFrom_eq_map]
    exact List.map_congr_left (fun i _ =>
      congrArg (fun t => baseDelay * t) (by omega))
  have h1 : fetchText transport name maxRetries baseDelay =
      (Except.ok body,
       (List.range (k - 1)).map (fun i => baseDelay * (i + 1))) := by
    rw [fetchText, hmain, hdel]
  refine ⟨h1, ?_⟩
  rw [fetch_player_stats, h1]

theorem C1_linear_backoff_witness :
    fetchText (fun a => if a < 3 then TransportResult.transientError "boom"
      else TransportResult.ok "payload") "p" 5 3 =
      (Except.ok "payload", [3, 6]) := by
  have h := (C1_linear_backoff
    (fun a => if a < 3 then TransportResult.transientError "boom"
      else TransportResult.ok "payload")
    "p" 5 3 3 (fun _ => "boom") "payload" (by decide) (by decide)
    (fun i _ h2 => if_pos h2) (by decide)).1
  rw [h]
  decide

/-- C2: for a transport that returns a 404 "not found" response on the
    first attempt, `fetch_player_stats` raises the permanent `ValueError`
    classification immediately, with zero sleeps and zero retries, and the
    caller `build_database` distinguishes it from transient failures: the
    player is recorded in the dropped-player store. -/
theorem C2_notfound_permanent (transport : Nat → TransportResult)
    (name today : String) (maxRetries baseDelay : Nat)
    (hmr : 1 ≤ maxRetries)
    (h404 : transport 1 = TransportResult.notFound) :
    fetch_player_stats transport name maxRetries baseDelay =
      (Except.error (PyError.valueError
        ("Player \x27" ++ name ++ "\x27 not on hiscores.")), []) ∧
    build_database (fun _ => transport) [name] today maxRetries baseDelay =
      ⟨[], [name], [name], none⟩ := by
  obtain ⟨f, rfl⟩ : ∃ f, maxRetries = f + 1 := ⟨maxRetries - 1, by omega⟩
  have hfetch : fetch_player_stats transport name (f + 1) baseDelay =
      (Except.error (PyError.valueError
        ("Player \x27" ++ name ++ "\x27 not on hiscores.")), []) := by
    simp [fetch_player_stats, fetchText, fetchGo, h404]
  refine ⟨hfetch, ?_⟩
  simp only [build_database, build_database_go, hfetch,
    notOnHiscores_msg_contains name, if_true]

theorem C2_notfound_permanent_witness :
    fetch_player_stats (fun _ => TransportResult.notFound) "p" 5 3 =
      (Except.error (PyError.valueError "Player \x27p\x27 not on hiscores."),
       []) ∧
    build_database (fun _ => (fun _ => TransportResult.notFound)) ["p"] "d"
      5 3 = ⟨[], ["p"], ["p"], none⟩ := by
  have h := C2_notfound_permanent (fun _ => TransportResult.notFound)
    "p" "d" 5 3 (by decide) rfl
  exact ⟨h.1.trans (by decide), h.2⟩

theorem decodeSkillsGo_error_of_mem :
    ∀ (l : List (String × List String)) (p : String × List String)
      (em : String), p ∈ l → decodeSkillRow p.2 = Except.error em →
      ∃ em2, decodeSkillsGo l = Except.error em2 := by
  intro l
  induction l with
  | nil => intro p em hp _; cases hp
  | cons hd tl ih =>
    intro p em hp hrow
    obtain ⟨skill, row⟩ := hd
    cases h1 : decodeSkillRow row with
    | error e1 => exact ⟨e1, by simp [decodeSkillsGo, h1]⟩
    | ok entry =>
      rcases List.mem_cons.mp hp with heq | hmem
      · rw [heq] at hrow
        have hrow2 : decodeSkillRow row = Except.error em := hrow
        rw [h1] at hrow2
        exact Except.noConfusion hrow2
      · obtain ⟨em2, h2⟩ := ih p em hmem hrow
        refine ⟨em2, ?_⟩
        simp [decodeSkillsGo, h1, h2]

/-- C3: a payload whose skill block decodes and which has fewer activity
    rows than the Schema Registry has bosses decodes without error, the
    decoded boss dict is empty, and the `get`-with-default of the row
    builder gives every boss the placeholder `{rank: None, kc: None}`. -/
theorem C3_short_activity_placeholder (rows : List (List String))
    (sk : List (String × SkillEntry))
    (hshort : (rows.drop SKILLS.length).length < BOSSES.length)
    (hskills : decodeSkills rows = Except.ok sk) :
    decodeRows rows = Except.ok ⟨sk, []⟩ ∧
    ∀ st, decodeRows rows = Except.ok st →
      ∀ b ∈ BOSSES, bossEntryOf st b = ⟨none, none⟩ := by
  have hbosses : decodeBosses rows = [] := by
    simp only [decodeBosses, bossRowsOf]
    rw [if_neg (by omega)]
    simp
  have h1 : decodeRows rows = Except.ok ⟨sk, []⟩ := by
    simp only [decodeRows, hskills, hbosses]
  refine ⟨h1, ?_⟩
  intro st hst b _
  rw [h1] at hst
  injection hst with h2
  rw [← h2]
  rfl

theorem C3_short_activity_placeholder_witness :
    decodeRows (List.replicate 25 ["1", "2", "3"]) =
      Except.ok ⟨SKILLS.map (fun s => (s, SkillEntry.mk 1 2 3)), []⟩ :=
  (C3_short_activity_placeholder (List.replicate 25 ["1", "2", "3"])
    (SKILLS.map (fun s => (s, SkillEntry.mk 1 2 3)))
    (by decide) (by decide)).1

/-- C4 counterexample: a well-formed payload with fewer rows than the
    skill count of the Schema Registry does NOT make decoding raise — it
    decodes successfully to a stats dict holding only the skills that had
    rows, contradicting the claim that insufficient rows raise a
    decoding-category error. -/
theorem C4_short_skill_block_counterexample :
    decodeRows [["1", "2", "3"]] =
      Except.ok ⟨[("overall", SkillEntry.mk 1 2 3)], []⟩ := by
  decide

/-- C4 (amended): decoding raises a decoding-category `ValueError` (never
    a transport-category error) whenever a present skill row is malformed
    (wrong field count or a non-numeric field), and the error is not
    retried: a transport succeeding on attempt 1 with such a body yields
    the `ValueError` with zero sleeps. -/
theorem C4_malformed_skill_row (transport : Nat → TransportResult)
    (name body : String) (maxRetries baseDelay : Nat)
    (hmr : 1 ≤ maxRetries) (hok1 : transport 1 = TransportResult.ok body)
    (hbad : ∃ p ∈ SKILLS.zip ((parsePayload body).take SKILLS.length),
      ∃ em, decodeSkillRow p.2 = Except.error em) :
    ∃ m, fetch_player_stats transport name maxRetries baseDelay =
      (Except.error (PyError.valueError m), []) := by
  obtain ⟨p, hp, em, hrow⟩ := hbad
  obtain ⟨em2, h2⟩ :=
    decodeSkillsGo_error_of_mem
      (SKILLS.zip ((parsePayload body).take SKILLS.length)) p em hp hrow
  obtain ⟨f, rfl⟩ : ∃ f, maxRetries = f + 1 := ⟨maxRetries - 1, by omega⟩
  refine ⟨em2, ?_⟩
  simp [fetch_player_stats, fetchText, fetchGo, hok1, decodeRows,
    decodeSkills, h2]

theorem C4_malformed_skill_row_witness :
    ∃ m, fetch_player_stats (fun _ => TransportResult.ok "x,2,3") "p" 5 3 =
      (Except.error (PyError.valueError m), []) :=
  C4_malformed_skill_row (fun _ => TransportResult.ok "x,2,3") "p" "x,2,3"
    5 3 (by decide) rfl
    ⟨("overall", ["x", "2", "3"]), by decide,
     "invalid literal for int() with base 10: \x27x\x27", by decide⟩

theorem decodeBossRow_long (row : List String) (h2 : 2 ≤ row.length) :
    decodeBossRow row =
      ⟨match pyInt (row.getD 0 "") with
        | some r => if r < 0 then none else some r
        | none => none,
       match pyInt (row.getD 1 "") with
        | some k => if k < 0 then some 0 else some k
        | none => none⟩ := by
  unfold decodeBossRow
  rw [if_neg (by omega)]

/-- C6: for a boss row with at least 2 fields — a negative parsed rank
    decodes to `none`; a negative parsed kill-count decodes to `0`; the
    decoded kill-count is never negative; and a parse failure on one field
    gives `none` for that field alone, leaving the sibling field a function
    of its own raw string only. -/
theorem C6_boss_row_normalisation (row : List String)
    (h2 : 2 ≤ row.length) :
    (∀ r, pyInt (row.getD 0 "") = some r → r < 0 →
      (decodeBossRow row).rank = none) ∧
    (∀ k, pyInt (row.getD 1 "") = some k → k < 0 →
      (decodeBossRow row).kc = some 0) ∧
    (∀ k, (decodeBossRow row).kc = some k → 0 ≤ k) ∧
    (pyInt (row.getD 0 "") = none → (decodeBossRow row).rank = none ∧
      ∀ row2, 2 ≤ row2.length → row2.getD 1 "" = row.getD 1 "" →
        (decodeBossRow row2).kc = (decodeBossRow row).kc) ∧
    (pyInt (row.getD 1 "") = none → (decodeBossRow row).kc = none ∧
      ∀ row2, 2 ≤ row2.length → row2.getD 0 "" = row.getD 0 "" →
        (decodeBossRow row2).rank = (decodeBossRow row).rank) := by
  refine ⟨?_, ?_, ?_, ?_, ?_⟩
  · intro r hr hneg
    rw [decodeBossRow_long row h2]
    show (match pyInt (row.getD 0 "") with
      | some r => if r < 0 then none else some r
      | none => none) = none
    rw [hr]
    show (if r < 0 then (none : Option Int) else some r) = none
    rw [if_pos hneg]
  · intro k hk hneg
    rw [decodeBossRow_long row h2]
    show (match pyInt (row.getD 1 "") with
      | some k => if k < 0 then some 0 else some k
      | none => none) = some 0
    rw [hk]
    show (if k < 0 then (some 0 : Option Int) else some k) = some 0
    rw [if_pos hneg]
  · intro k hk
    have hk2 : (match pyInt (row.getD 1 "") with
        | some k0 => if k0 < 0 then some 0 else some k0
        | none => none) = some k := by
      rw [decodeBossRow_long row h2] at hk
      exact hk
    cases hp : pyInt (row.getD 1 "") with
    | none =>
      rw [hp] at hk2
      exact Option.noConfusion hk2
    | some k0 =>
      rw [hp] at hk2
      have hk3 : (if k0 < 0 then (some 0 : Option Int) else some k0) =
          some k := hk2
      by_cases hk0 : k0 < 0
      · rw [if_pos hk0] at hk3
        injection hk3 with h3
        omega
      · rw [if_neg hk0] at hk3
        injection hk3 with h3
        omega
  · intro hnone
    constructor
    · rw [decodeBossRow_long row h2]
      show (match pyInt (row.getD 0 "") with
        | some r => if r < 0 then none else some r
        | none => none) = none
      rw [hnone]
    · intro row2 h2b hsame
      rw [decodeBossRow_long row h2, decodeBossRow_long row2 h2b, hsame]
  · intro hnone
    constructor
    · rw [decodeBossRow_long row h2]
      show (match pyInt (row.getD 1 "") with
        | some k => if k < 0 then some 0 else some k
        | none => none) = none
      rw [hnone]
    · intro row2 h2b hsame
      rw [decodeBossRow_long row h2, decodeBossRow_long row2 h2b, hsame]

theorem C6_boss_row_normalisation_witness :
    (decodeBossRow ["-1", "-2"]).rank = none ∧
    (decodeBossRow ["-1", "-2"]).kc = some 0 := by
  have h := C6_boss_row_normalisation ["-1", "-2"] (by decide)
  exact ⟨h.1 (-1) (by decide) (by decide), h.2.1 (-2) (by decide) (by decide)⟩

/-- C7: when at least `B` activity rows follow the skill block, the decoder
    takes exactly the last `B` of them, pairing them with the Schema
    Registry boss names in order, and any extra leading activity rows are
    discarded. -/
theorem C7_tail_anchored_bosses (rows extra tailRows : List (List String))
    (hsplit : rows.drop SKILLS.length = extra ++ tailRows)
    (hlen : tailRows.length = BOSSES.length) :
    decodeBosses rows =
      (BOSSES.zip tailRows).map (fun p => (p.1, decodeBossRow p.2)) := by
  simp only [decodeBosses, bossRowsOf, hsplit]
  rw [if_pos (by simp only [List.length_append]; omega)]
  rw [show (extra ++ tailRows).length - BOSSES.length = extra.length from
    by simp only [List.length_append]; omega]
  rw [List.drop_left]

theorem C7_tail_anchored_bosses_witness :
    decodeBosses (List.replicate 25 ["1", "2", "3"] ++ [["9", "9"]] ++
      List.replicate 67 ["1", "2"]) =
      (BOSSES.zip (List.replicate 67 ["1", "2"])).map
        (fun p => (p.1, decodeBossRow p.2)) :=
  C7_tail_anchored_bosses
    (List.replicate 25 ["1", "2", "3"] ++ [["9", "9"]] ++
      List.replicate 67 ["1", "2"])
    [["9", "9"]] (List.replicate 67 ["1", "2"]) (by decide) (by decide)

/-- C5 (code bug): a single player's short-but-well-formed payload aborts
    the whole batch.  With the payload `"1,2,3"` the decode succeeds with
    only the `overall` skill present, the row-building loop of
    `build_database` — which sits outside the `try` block — raises
    `KeyError("attack")`, and the loop stops: `bob` is never attempted,
    contradicting the per-player failure-isolation claim. -/
theorem C5_batch_abort_on_short_payload :
    build_database (fun _ _ => TransportResult.ok "1,2,3")
      ["alice", "bob"] "2026-10-12" 5 3 =
      ⟨[], [], ["alice"], some (PyError.keyError "attack")⟩ := by
  decide

/-- C8: for a transport that fails transiently on every attempt,
    `fetch_player_stats` raises the LAST transient error (not swallowed),
    and the caller `build_database` skips the player with no write to the
    dropped-player store and no batch abort. -/
theorem C8_transient_exhaustion (transport : Nat → TransportResult)
    (name today : String) (maxRetries baseDelay : Nat) (m : Nat → String)
    (hmr : 1 ≤ maxRetries)
    (hfail : ∀ i, 1 ≤ i → i ≤ maxRetries →
      transport i = TransportResult.transientError (m i)) :
    fetch_player_stats transport name maxRetries baseDelay =
      (Except.error (PyError.requestError (m maxRetries)),
       (List.range (maxRetries - 1)).map (fun i => baseDelay * (i + 1))) ∧
    build_database (fun _ => transport) [name] today maxRetries baseDelay =
      ⟨[], [], [name], none⟩ := by
  have hmain := fetchGo_exhaust transport name maxRetries baseDelay m hfail
    (maxRetries - 1) 1 none (le_refl 1) (by omega)
  rw [show maxRetries + 1 - 1 = maxRetries from by omega] at hmain
  have hdel : delaysFrom baseDelay 1 (maxRetries - 1) =
      (List.range (maxRetries - 1)).map (fun i => baseDelay * (i + 1)) := by
    rw [delaysFrom_eq_map]
    exact List.map_congr_left (fun i _ =>
      congrArg (fun t => baseDelay * t) (by omega))
  have hfetch : fetch_player_stats transport name maxRetries baseDelay =
      (Except.error (PyError.requestError (m maxRetries)),
       (List.range (maxRetries - 1)).map (fun i => baseDelay * (i + 1))) := by
    rw [fetch_player_stats, fetchText, hmain, hdel]
  refine ⟨hfetch, ?_⟩
  simp only [build_database, build_database_go, hfetch]

theorem C8_transient_exhaustion_witness :
    fetch_player_stats (fun _ => TransportResult.transientError "boom") "p"
      3 2 = (Except.error (PyError.requestError "boom"), [2, 4]) ∧
    build_database (fun _ => (fun _ => TransportResult.transientError "boom"))
      ["p"] "d" 3 2 = ⟨[], [], ["p"], none⟩ := by
  have h := C8_transient_exhaustion
    (fun _ => TransportResult.transientError "boom") "p" "d" 3 2
    (fun _ => "boom") (by decide) (fun i _ _ => rfl)
  exact ⟨h.1.trans (by decide), h.2⟩

/-- C9: `load_dropped_players` returns the empty set both when the storage
    file is absent and when the file exists but its frame has no
    `player_name` column; as a total function it raises in neither case. -/
theorem C9_load_dropped_empty :
    load_dropped_players none = [] ∧
    ∀ df, df.lookup "player_name" = none →
      load_dropped_players (some df) = [] := by
  refine ⟨rfl, ?_⟩
  intro df h
  simp [load_dropped_players, h]

theorem C9_load_dropped_empty_witness :
    load_dropped_players (some [("other", ["x"])]) = [] :=
  C9_load_dropped_empty.2 [("other", ["x"])] (by decide)


theorem build_database_single_tagged
    (transports : String → Nat → TransportResult) (n today : String)
    (mr bd : Nat) (m : String)
    (hres : (fetch_player_stats (transports n) n mr bd).1 =
      Except.error (PyError.valueError m))
    (hc : strContains m "not on hiscores" = true) :
    build_database transports [n] today mr bd = ⟨[], [n], [n], none⟩ := by
  simp only [build_database, build_database_go, hres, hc, if_true]

theorem build_database_single_untagged
    (transports : String → Nat → TransportResult) (n today : String)
    (mr bd : Nat) (m : String)
    (hres : (fetch_player_stats (transports n) n mr bd).1 =
      Except.error (PyError.valueError m))
    (hc : strContains m "not on hiscores" = false) :
    build_database transports [n] today mr bd = ⟨[], [], [n], none⟩ := by
  simp [build_database, build_database_go, hres, hc]

theorem build_database_single_other
    (transports : String → Nat → TransportResult) (n today : String)
    (mr bd : Nat) (e : PyError)
    (hres : (fetch_player_stats (transports n) n mr bd).1 = Except.error e)
    (hne : ∀ m, e ≠ PyError.valueError m) :
    build_database transports [n] today mr bd = ⟨[], [], [n], none⟩ := by
  cases e with
  | valueError m => exact absurd rfl (hne m)
  | requestError m => simp [build_database, build_database_go, hres]
  | runtimeError m => simp [build_database, build_database_go, hres]
  | keyError k => simp [build_database, build_database_go, hres]

theorem build_database_single_ok_row
    (transports : String → Nat → TransportResult) (n today : String)
    (mr bd : Nat) (st : Stats) (row : PanelRow)
    (hres : (fetch_player_stats (transports n) n mr bd).1 = Except.ok st)
    (hrow : buildRow n today st = Except.ok row) :
    build_database transports [n] today mr bd = ⟨[row], [], [n], none⟩ := by
  simp [build_database, build_database_go, hres, hrow]

theorem build_database_single_ok_err
    (transports : String → Nat → TransportResult) (n today : String)
    (mr bd : Nat) (st : Stats) (e : PyError)
    (hres : (fetch_player_stats (transports n) n mr bd).1 = Except.ok st)
    (hrow : buildRow n today st = Except.error e) :
    build_database transports [n] today mr bd = ⟨[], [], [n], some e⟩ := by
  simp [build_database, build_database_go, hres, hrow]

/-- C10: `build_database` marks a player dropped (appending the name to
    the dropped-player store and emitting no row) exactly when the fetch
    raises a `ValueError` whose message contains the substring
    "not on hiscores"; a `ValueError` without the substring, and any
    non-`ValueError`, is skipped with no dropped-store write.  The test is
    pure substring matching, so a decoding `ValueError` whose message
    happens to contain the substring is recorded as dropped. -/
theorem C10_dropped_iff_substring
    (transports : String → Nat → TransportResult) (name today : String)
    (maxRetries baseDelay : Nat) :
    ((build_database transports [name] today maxRetries
        baseDelay).dropped = [name] ↔
      ∃ m, (fetch_player_stats (transports name) name maxRetries
          baseDelay).1 = Except.error (PyError.valueError m) ∧
        strContains m "not on hiscores" = true) ∧
    (∀ m, (fetch_player_stats (transports name) name maxRetries
        baseDelay).1 = Except.error (PyError.valueError m) →
      strContains m "not on hiscores" = true →
      build_database transports [name] today maxRetries baseDelay =
        ⟨[], [name], [name], none⟩) ∧
    (∀ m, (fetch_player_stats (transports name) name maxRetries
        baseDelay).1 = Except.error (PyError.valueError m) →
      strContains m "not on hiscores" = false →
      build_database transports [name] today maxRetries baseDelay =
        ⟨[], [], [name], none⟩) ∧
    (∀ e, (fetch_player_stats (transports name) name maxRetries
        baseDelay).1 = Except.error e →
      (∀ m, e ≠ PyError.valueError m) →
      build_database transports [name] today maxRetries baseDelay =
        ⟨[], [], [name], none⟩) := by
  cases hres : (fetch_player_stats (transports name) name maxRetries
      baseDelay).1 with
  | error e =>
    cases e with
    | valueError m =>
      by_cases hc : strContains m "not on hiscores" = true
      · have hb := build_database_single_tagged transports name today
          maxRetries baseDelay m hres hc
        refine ⟨⟨fun _ => ⟨m, rfl, hc⟩, fun _ => by rw [hb]⟩,
          fun _ _ _ => hb, ?_, ?_⟩
        · intro m2 hm2 hcf
          rw [Except.error.injEq, PyError.valueError.injEq] at hm2
          rw [← hm2] at hcf
          rw [hc] at hcf
          exact absurd hcf (by decide)
        · intro e2 he2 hne
          rw [Except.error.injEq] at he2
          exact absurd he2.symm (hne m)
      · have hcf : strContains m "not on hiscores" = false := by
          rw [Bool.not_eq_true] at hc
          exact hc
        have hb := build_database_single_untagged transports name today
          maxRetries baseDelay m hres hcf
        refine ⟨⟨?_, ?_⟩, ?_, fun _ _ _ => hb, fun _ _ _ => hb⟩
        · intro hdr
          rw [hb] at hdr
          exact absurd hdr (by simp)
        · rintro ⟨m2, hm2, hct⟩
          rw [Except.error.injEq, PyError.valueError.injEq] at hm2
          rw [hm2] at hcf
          rw [hct] at hcf
          exact absurd hcf (by decide)
        · intro m2 hm2 hct
          rw [Except.error.injEq, PyError.valueError.injEq] at hm2
          rw [hm2] at hcf
          rw [hct] at hcf
          exact absurd hcf (by decide)
    | requestError m =>
      have hb := build_database_single_other transports name today
        maxRetries baseDelay (PyError.requestError m) hres
        (fun m2 h => PyError.noConfusion h)
      refine ⟨⟨?_, ?_⟩, ?_, ?_, fun _ _ _ => hb⟩
      · intro hdr
        rw [hb] at hdr
        exact absurd hdr (by simp)
      · rintro ⟨m2, hm2, _⟩
        rw [Except.error.injEq] at hm2
        exact PyError.noConfusion hm2
      · intro m2 hm2 _
        rw [Except.error.injEq] at hm2
        exact PyError.noConfusion hm2
      · intro m2 hm2 _
        rw [Except.error.injEq] at hm2
        exact PyError.noConfusion hm2
    | runtimeError m =>
      have hb := build_database_single_other transports name today
        maxRetries baseDelay (PyError.runtimeError m) hres
        (fun m2 h => PyError.noConfusion h)
      refine ⟨⟨?_, ?_⟩, ?_, ?_, fun _ _ _ => hb⟩
      · intro hdr
        rw [hb] at hdr
        exact absurd hdr (by simp)
      · rintro ⟨m2, hm2, _⟩
        rw [Except.error.injEq] at hm2
        exact PyError.noConfusion hm2
      · intro m2 hm2 _
        rw [Except.error.injEq] at hm2
        exact PyError.noConfusion hm2
      · intro m2 hm2 _
        rw [Except.error.injEq] at hm2
        exact PyError.noConfusion hm2
    | keyError k =>
      have hb := build_database_single_other transports name today
        maxRetries baseDelay (PyError.keyError k) hres
        (fun m2 h => PyError.noConfusion h)
      refine ⟨⟨?_, ?_⟩, ?_, ?_, fun _ _ _ => hb⟩
      · intro hdr
        rw [hb] at hdr
        exact absurd hdr (by simp)
      · rintro ⟨m2, hm2, _⟩
        rw [Except.error.injEq] at hm2
        exact PyError.noConfusion hm2
      · intro m2 hm2 _
        rw [Except.error.injEq] at hm2
        exact PyError.noConfusion hm2
      · intro m2 hm2 _
        rw [Except.error.injEq] at hm2
        exact PyError.noConfusion hm2
  | ok st =>
    have hb : (build_database transports [name] today maxRetries
        baseDelay).dropped = [] := by
      cases hrow : buildRow name today st with
      | ok row =>
        rw [build_database_single_ok_row transports name today maxRetries
          baseDelay st row hres hrow]
      | error e =>
        rw [build_database_single_ok_err transports name today maxRetries
          baseDelay st e hres hrow]
    refine ⟨⟨?_, ?_⟩,
      fun m2 hm2 _ => Except.noConfusion hm2,
      fun m2 hm2 _ => Except.noConfusion hm2,
      fun e2 he2 _ => Except.noConfusion he2⟩
    · intro hdr
      rw [hb] at hdr
      exact absurd hdr (by simp)
    · rintro ⟨m2, hm2, _⟩
      exact Except.noConfusion hm2

theorem C10_dropped_iff_substring_witness :
    build_database (fun _ _ => TransportResult.ok "9 not on hiscores,2,3")
      ["p"] "d" 5 3 = ⟨[], ["p"], ["p"], none⟩ :=
  (C10_dropped_iff_substring
    (fun _ _ => TransportResult.ok "9 not on hiscores,2,3") "p" "d" 5 3).2.1
    "invalid literal for int() with base 10: \x279 not on hiscores\x27"
    (by decide) (by decide)
